import Mathlib

/-!
Verification of the retargeting core of `src/main.js` (avatar-recoder).

The definitions below are shallow embeddings of the corresponding
JavaScript functions; numeric floating-point values are modelled by exact
rationals (`ℚ`) where the code is pure arithmetic and by reals (`ℝ`) where
it uses `Math.acos`, `Math.exp`, `Math.pow` or `Math.sqrt`.
-/

namespace AvatarRecoder

/-- `VIS_THRESHOLD_ON` (main.js line 12): activation threshold 0.65. -/
def VIS_THRESHOLD_ON : ℚ := 65 / 100

/-- `VIS_THRESHOLD_OFF` (main.js line 13): deactivation threshold 0.45. -/
def VIS_THRESHOLD_OFF : ℚ := 45 / 100

/-- A MediaPipe landmark as read by `applyPose`: position components plus an
optional `visibility` field (absent/`null` modelled by `none`). -/
structure Landmark where
  x : ℚ
  y : ℚ
  z : ℚ
  visibility : Option ℚ

/-- A 3-component vector (stand-in for `THREE.Vector3`), rational-valued. -/
structure Vec3 where
  x : ℚ
  y : ℚ
  z : ℚ
deriving DecidableEq

/-- `mpToVRM(landmark, mirror)` (main.js lines 2094-2100): MediaPipe to VRM
coordinate conversion; `mirror` negates x, and y and z are always negated. -/
def mpToVRM (v : Vec3) (mirror : Bool) : Vec3 :=
  ⟨if mirror then -v.x else v.x, -v.y, -v.z⟩

/-- The wrist confidence read in `applyPose` (main.js line 2308):
`landmarks[15].visibility ?? 1.0` — a missing visibility defaults to 1. -/
def wristVisibility (lm : Landmark) : ℚ :=
  lm.visibility.getD 1

/-- One step of the hysteresis update in `applyPose` (main.js lines 2312-2323),
performed identically for the left and the right arm:
`if (!armActive && vis > VIS_THRESHOLD_ON) armActive = true;
 else if (armActive && vis < VIS_THRESHOLD_OFF) armActive = false;`. -/
def hysteresisStep (active : Bool) (vis : ℚ) : Bool :=
  if active = false ∧ VIS_THRESHOLD_ON < vis then true
  else if active = true ∧ vis < VIS_THRESHOLD_OFF then false
  else active

/-- The per-frame activation states produced by iterating `hysteresisStep`
from an initial state over a sequence of confidences. -/
def hysteresisRun (init : Bool) (visList : List ℚ) : List Bool :=
  (visList.scanl hysteresisStep init).tail

/-- `THREE.Vector3.crossVectors` componentwise. -/
def cross (u v : Vec3) : Vec3 :=
  ⟨u.y * v.z - u.z * v.y, u.z * v.x - u.x * v.z, u.x * v.y - u.y * v.x⟩

/-- `THREE.Vector3.lengthSq`. -/
def lengthSq (v : Vec3) : ℚ :=
  v.x * v.x + v.y * v.y + v.z * v.z

/-- The bend-plane-normal selection of `solveTwoBoneIK` (main.js lines
2215-2228): `planeNormal = cross(dirToTarget, dirToPole)`; if its squared
length is below `0.0001` fall back to `cross(dirToTarget, (0,1,0))`, and if
that is also degenerate to `cross(dirToTarget, (0,0,1))`. -/
def planeNormalSelect (dirToTarget dirToPole : Vec3) : Vec3 :=
  let n := cross dirToTarget dirToPole
  if lengthSq n < 1 / 10000 then
    let n1 := cross dirToTarget ⟨0, 1, 0⟩
    if lengthSq n1 < 1 / 10000 then cross dirToTarget ⟨0, 0, 1⟩
    else n1
  else n

/-- C1: the limb activation boolean follows the two-threshold hysteresis
state machine: an Inactive arm becomes Active exactly when the confidence is
strictly greater than 0.65, an Active arm becomes Inactive exactly when the
confidence is strictly less than 0.45, any confidence in between leaves the
state unchanged, and starting Inactive the sequence [0.7, 0.5, 0.3, 0.7]
yields [Active, Active, Inactive, Active]. -/
theorem hysteresis_two_threshold :
    (∀ v : ℚ, hysteresisStep false v = true ↔ 65 / 100 < v) ∧
    (∀ v : ℚ, hysteresisStep true v = false ↔ v < 45 / 100) ∧
    (∀ (s : Bool) (v : ℚ),
      45 / 100 ≤ v → v ≤ 65 / 100 → hysteresisStep s v = s) ∧
    hysteresisRun false [7/10, 5/10, 3/10, 7/10] = [true, true, false, true] := by
  refine ⟨?_, ?_, ?_, ?_⟩
  · intro v
    by_cases h : (65 : ℚ) / 100 < v <;>
      simp [hysteresisStep, VIS_THRESHOLD_ON, VIS_THRESHOLD_OFF, h]
  · intro v
    by_cases h : v < (45 : ℚ) / 100 <;>
      simp [hysteresisStep, VIS_THRESHOLD_OFF, h]
  · intro s v h1 h2
    cases s
    · have h : ¬ ((65 : ℚ) / 100 < v) := not_lt.mpr h2
      simp [hysteresisStep, VIS_THRESHOLD_ON, h]
    · have h : ¬ (v < (45 : ℚ) / 100) := not_lt.mpr h1
      simp [hysteresisStep, VIS_THRESHOLD_OFF, h]
  · norm_num [hysteresisRun, List.scanl, hysteresisStep,
      VIS_THRESHOLD_ON, VIS_THRESHOLD_OFF]

/-- Witness for C1 at the in-between confidence 0.5 in state Active. -/
theorem hysteresis_two_threshold_witness :
    (45 : ℚ) / 100 ≤ 5 / 10 ∧ (5 : ℚ) / 10 ≤ 65 / 100 ∧
    hysteresisStep true (5 / 10) = true :=
  ⟨by norm_num, by norm_num,
    hysteresis_two_threshold.2.2.1 true (5 / 10) (by norm_num) (by norm_num)⟩

/-- C8: the tracker-to-rig mapping is stateless and satisfies: y and z
outputs do not depend on the mirror flag, mirror=true negates x, and applying
the mirrored mapping twice recovers the original x component. -/
theorem mpToVRM_mirror_involution :
    ∀ v : Vec3,
      (mpToVRM (mpToVRM v true) true).x = v.x ∧
      (mpToVRM v true).x = -v.x ∧
      (∀ m : Bool, (mpToVRM v m).y = (mpToVRM v false).y ∧
        (mpToVRM v m).z = (mpToVRM v false).z) := by
  intro v
  refine ⟨by simp [mpToVRM], by simp [mpToVRM], ?_⟩
  intro m
  cases m <;> simp [mpToVRM]

/-- C9: a wrist landmark with no visibility field is treated as confidence
exactly 1, which exceeds the on-threshold 0.65, so a frame with missing wrist
confidence drives an Inactive arm to Active and never deactivates it. -/
theorem missing_visibility_activates :
    ∀ lm : Landmark, lm.visibility = none →
      wristVisibility lm = 1 ∧
      hysteresisStep false (wristVisibility lm) = true ∧
      hysteresisStep true (wristVisibility lm) = true := by
  intro lm h
  have hv : wristVisibility lm = 1 := by simp [wristVisibility, h]
  refine ⟨hv, ?_, ?_⟩ <;>
    rw [hv] <;>
    norm_num [hysteresisStep, VIS_THRESHOLD_ON, VIS_THRESHOLD_OFF]

/-- Witness for C9 at a concrete landmark with absent visibility. -/
theorem missing_visibility_activates_witness :
    wristVisibility ⟨0, 0, 0, none⟩ = 1 ∧
    hysteresisStep false (wristVisibility ⟨0, 0, 0, none⟩) = true ∧
    hysteresisStep true (wristVisibility ⟨0, 0, 0, none⟩) = true :=
  missing_visibility_activates ⟨0, 0, 0, none⟩ rfl

/-- C5: for any unit target direction and any pole direction — including
exactly colinear ones — the selected bend-plane normal is nonzero (the
rotation built from it is well-defined); when the primary cross product is
degenerate the code falls back first to the world up axis and, if that is
also degenerate, to the world forward axis. -/
theorem planeNormal_never_degenerate :
    ∀ t p : Vec3, lengthSq t = 1 →
      0 < lengthSq (planeNormalSelect t p) ∧
      (lengthSq (cross t p) < 1 / 10000 →
        1 / 10000 ≤ lengthSq (cross t ⟨0, 1, 0⟩) →
        planeNormalSelect t p = cross t ⟨0, 1, 0⟩) ∧
      (lengthSq (cross t p) < 1 / 10000 →
        lengthSq (cross t ⟨0, 1, 0⟩) < 1 / 10000 →
        planeNormalSelect t p = cross t ⟨0, 0, 1⟩) := by
  intro t p hunit
  have hupLen : lengthSq (cross t ⟨0, 1, 0⟩) = t.z * t.z + t.x * t.x := by
    simp only [cross, lengthSq]
    ring
  have hfwdLen : lengthSq (cross t ⟨0, 0, 1⟩) = t.y * t.y + t.x * t.x := by
    simp only [cross, lengthSq]
    ring
  have hunit' : t.x * t.x + t.y * t.y + t.z * t.z = 1 := hunit
  refine ⟨?_, ?_, ?_⟩
  · by_cases h0 : lengthSq (cross t p) < 1 / 10000
    · by_cases h1 : lengthSq (cross t ⟨0, 1, 0⟩) < 1 / 10000
      · have hres : planeNormalSelect t p = cross t ⟨0, 0, 1⟩ := by
          simp only [planeNormalSelect]
          rw [if_pos h0, if_pos h1]
        rw [hres, hfwdLen]
        rw [hupLen] at h1
        linarith [mul_self_nonneg t.x, mul_self_nonneg t.y, mul_self_nonneg t.z]
      · have hres : planeNormalSelect t p = cross t ⟨0, 1, 0⟩ := by
          simp only [planeNormalSelect]
          rw [if_pos h0, if_neg h1]
        rw [hres]
        push_neg at h1
        linarith
    · have hres : planeNormalSelect t p = cross t p := by
        simp only [planeNormalSelect]
        rw [if_neg h0]
      rw [hres]
      push_neg at h0
      linarith
  · intro h0 h1
    simp only [planeNormalSelect]
    rw [if_pos h0, if_neg (not_lt.mpr h1)]
  · intro h0 h1
    simp only [planeNormalSelect]
    rw [if_pos h0, if_pos h1]

/-- Witness for C5 at the exactly colinear pair target = (0,1,0),
pole = (0,2,0), where both the primary and the up-axis fallback are
degenerate and the forward-axis fallback engages. -/
theorem planeNormal_never_degenerate_witness :
    lengthSq (⟨0, 1, 0⟩ : Vec3) = 1 ∧
    0 < lengthSq (planeNormalSelect ⟨0, 1, 0⟩ ⟨0, 2, 0⟩) ∧
    planeNormalSelect ⟨0, 1, 0⟩ ⟨0, 2, 0⟩ = cross ⟨0, 1, 0⟩ ⟨0, 0, 1⟩ :=
  ⟨by norm_num [lengthSq],
    (planeNormal_never_degenerate ⟨0, 1, 0⟩ ⟨0, 2, 0⟩ (by norm_num [lengthSq])).1,
    (planeNormal_never_degenerate ⟨0, 1, 0⟩ ⟨0, 2, 0⟩ (by norm_num [lengthSq])).2.2
      (by norm_num [lengthSq, cross]) (by norm_num [lengthSq, cross])⟩

/-- Constructor parameters of `OneEuroFilter` (main.js lines 16-24), fixed
for the filter's lifetime. -/
structure EuroParams where
  minCutoff : ℝ
  beta : ℝ
  dCutoff : ℝ

/-- The mutable memory of an initialized `OneEuroFilter`: `xPrev`, `dxPrev`,
`tPrev`. An uninitialized filter (`tPrev === null`) is `(none : Option
EuroState)`. -/
structure EuroState where
  xPrev : ℝ
  dxPrev : ℝ
  tPrev : ℝ

/-- `OneEuroFilter.smoothingFactor(te, cutoff)` (main.js lines 26-29):
`r = 2π·cutoff·te; return r / (r + 1)`. -/
noncomputable def smoothingFactor (te cutoff : ℝ) : ℝ :=
  let r := 2 * Real.pi * cutoff * te
  r / (r + 1)

/-- `OneEuroFilter.filter(x, t)` (main.js lines 31-59), returning the updated
state together with the returned value. -/
noncomputable def euroFilter (p : EuroParams) (s : Option EuroState)
    (x t : ℝ) : EuroState × ℝ :=
  match s with
  | none => (⟨x, 0, t⟩, x)
  | some st =>
    let te := t - st.tPrev
    if te ≤ 0 then (st, st.xPrev)
    else
      let dx := (x - st.xPrev) / te
      let alphaDx := smoothingFactor te p.dCutoff
      let dxFiltered := alphaDx * dx + (1 - alphaDx) * st.dxPrev
      let cutoff := p.minCutoff + p.beta * |dxFiltered|
      let alpha := smoothingFactor te cutoff
      let xFiltered := alpha * x + (1 - alpha) * st.xPrev
      (⟨xFiltered, dxFiltered, t⟩, xFiltered)

/-- The spec's smoothing factor, written as the explicit formula
`α = r/(r+1)` with `r = 2π·cutoff·elapsed`. -/
noncomputable def specAlphaOf (cutoff te : ℝ) : ℝ :=
  (2 * Real.pi * cutoff * te) / (2 * Real.pi * cutoff * te + 1)

/-- The spec's filtered derivative: the exponential blend of the raw
derivative `(value − prevFiltered)/te` with the previous filtered derivative
using `α(te, dCutoff)`. -/
noncomputable def specDxFiltered (p : EuroParams) (st : EuroState)
    (x t : ℝ) : ℝ :=
  specAlphaOf p.dCutoff (t - st.tPrev) * ((x - st.xPrev) / (t - st.tPrev)) +
    (1 - specAlphaOf p.dCutoff (t - st.tPrev)) * st.dxPrev

/-- The spec's adaptive cutoff: `minCutoff + beta·|filteredDerivative|`. -/
noncomputable def specCutoff (p : EuroParams) (st : EuroState) (x t : ℝ) : ℝ :=
  p.minCutoff + p.beta * |specDxFiltered p st x t|

/-- The spec's output smoothing factor `α(te, adaptiveCutoff)`. -/
noncomputable def specAlpha (p : EuroParams) (st : EuroState) (x t : ℝ) : ℝ :=
  specAlphaOf (specCutoff p st x t) (t - st.tPrev)

/-- The spec's output value: `α·value + (1−α)·prevFiltered`. -/
noncomputable def specOut (p : EuroParams) (st : EuroState) (x t : ℝ) : ℝ :=
  specAlpha p st x t * x + (1 - specAlpha p st x t) * st.xPrev

/-- Shared reduction lemma: on positive elapsed time the code's filter call
produces exactly the spec's output and the spec's state update. -/
theorem euroFilter_some_eq (p : EuroParams) (st : EuroState) (x t : ℝ)
    (h : 0 < t - st.tPrev) :
    euroFilter p (some st) x t =
      (⟨specOut p st x t, specDxFiltered p st x t, t⟩, specOut p st x t) := by
  simp only [euroFilter, smoothingFactor, specOut, specAlpha, specAlphaOf,
    specCutoff, specDxFiltered]
  rw [if_neg (not_le.mpr h)]

/-- C3: on every adaptive-filter call after the first with strictly positive
elapsed time `te = t − tPrev`, the returned value equals
`α·value + (1−α)·prevFiltered` with `α = r/(r+1)`, `r = 2π·cutoff·te`,
`cutoff = minCutoff + beta·|filteredDerivative|`, the filtered derivative
being the exponential `α(te, dCutoff)`-blend of the raw derivative with the
previous one; the stored state becomes the new filtered value, the new
filtered derivative and the call's timestamp. -/
theorem euroFilter_recurrence :
    ∀ (p : EuroParams) (st : EuroState) (x t : ℝ), 0 < t - st.tPrev →
      (euroFilter p (some st) x t).2 = specOut p st x t ∧
      (euroFilter p (some st) x t).1 =
        ⟨specOut p st x t, specDxFiltered p st x t, t⟩ := by
  intro p st x t h
  rw [euroFilter_some_eq p st x t h]
  exact ⟨rfl, rfl⟩

/-- Witness for C3 at parameters (1, 0.007, 1), state (0, 0, 0), input
value 1 at time 1. -/
theorem euroFilter_recurrence_witness :
    (euroFilter ⟨1, 7/1000, 1⟩ (some ⟨0, 0, 0⟩) 1 1).2 =
      specOut ⟨1, 7/1000, 1⟩ ⟨0, 0, 0⟩ 1 1 :=
  (euroFilter_recurrence ⟨1, 7/1000, 1⟩ ⟨0, 0, 0⟩ 1 1 (by norm_num)).1

/-- C7: calling the filter with a timestamp at or before the stored previous
timestamp returns the previous filtered value with the whole state unchanged,
and repeating such a call returns the same value again. -/
theorem euroFilter_nonpos_elapsed :
    ∀ (p : EuroParams) (st : EuroState) (x t : ℝ), t ≤ st.tPrev →
      euroFilter p (some st) x t = (st, st.xPrev) ∧
      euroFilter p (some (euroFilter p (some st) x t).1) x t =
        (st, st.xPrev) := by
  intro p st x t h
  have h1 : euroFilter p (some st) x t = (st, st.xPrev) := by
    simp only [euroFilter]
    rw [if_pos (by linarith)]
  refine ⟨h1, ?_⟩
  rw [h1]
  exact h1

/-- Witness for C7 at a duplicate timestamp (t = tPrev = 5). -/
theorem euroFilter_nonpos_elapsed_witness :
    euroFilter ⟨1, 7/1000, 1⟩ (some ⟨2, 3, 5⟩) 9 5 = (⟨2, 3, 5⟩, 2) :=
  (euroFilter_nonpos_elapsed ⟨1, 7/1000, 1⟩ ⟨2, 3, 5⟩ 9 5 (by norm_num)).1

/-- C4: feeding a constant value `c` at a strictly later timestamp keeps the
output between the previous filtered value and `c` inclusive, so the distance
to `c` never increases; the output is also what gets stored for the next
call, for any `minCutoff > 0` (and the nonnegative `beta` the code always
uses). -/
theorem euroFilter_constant_no_overshoot :
    ∀ (p : EuroParams) (st : EuroState) (c t : ℝ),
      0 < p.minCutoff → 0 ≤ p.beta → st.tPrev < t →
      (min st.xPrev c ≤ (euroFilter p (some st) c t).2 ∧
        (euroFilter p (some st) c t).2 ≤ max st.xPrev c) ∧
      |(euroFilter p (some st) c t).2 - c| ≤ |st.xPrev - c| ∧
      (euroFilter p (some st) c t).1.xPrev = (euroFilter p (some st) c t).2 := by
  intro p st c t hmc hb ht
  have hte : 0 < t - st.tPrev := by linarith
  rw [euroFilter_some_eq p st c t hte]
  dsimp only
  have hcut : 0 < specCutoff p st c t :=
    add_pos_of_pos_of_nonneg hmc (mul_nonneg hb (abs_nonneg _))
  have hr : 0 < 2 * Real.pi * specCutoff p st c t * (t - st.tPrev) := by
    have hpi := Real.pi_pos
    positivity
  have ha0 : 0 < specAlpha p st c t := by
    unfold specAlpha specAlphaOf
    exact div_pos hr (by linarith)
  have ha1 : specAlpha p st c t < 1 := by
    unfold specAlpha specAlphaOf
    rw [div_lt_one (by linarith)]
    linarith
  set A := specAlpha p st c t with hA
  have hout : specOut p st c t = A * c + (1 - A) * st.xPrev := rfl
  constructor
  · constructor
    · rcases le_total st.xPrev c with hle | hle
      · rw [min_eq_left hle, hout]
        nlinarith
      · rw [min_eq_right hle, hout]
        nlinarith
    · rcases le_total st.xPrev c with hle | hle
      · rw [max_eq_right hle, hout]
        nlinarith
      · rw [max_eq_left hle, hout]
        nlinarith
  · constructor
    · have hdiff : specOut p st c t - c = (1 - A) * (st.xPrev - c) := by
        rw [hout]
        ring
      rw [hdiff, abs_mul, abs_of_nonneg (by linarith : (0:ℝ) ≤ 1 - A)]
      exact mul_le_of_le_one_left (abs_nonneg _) (by linarith)
    · rfl

/-- Witness for C4 at parameters (1, 0.007, 1), previous value 0, constant
input 1 fed at time 1. -/
theorem euroFilter_constant_no_overshoot_witness :
    |(euroFilter ⟨1, 7/1000, 1⟩ (some ⟨0, 0, 0⟩) 1 1).2 - 1| ≤
      |(⟨0, 0, 0⟩ : EuroState).xPrev - 1| :=
  (euroFilter_constant_no_overshoot ⟨1, 7/1000, 1⟩ ⟨0, 0, 0⟩ 1 1
    (by norm_num) (by norm_num) (by norm_num)).2.1

/-- `LERP_SPEED` (main.js line 11). -/
noncomputable def LERP_SPEED : ℝ := 12

/-- `getLerpFactor(deltaTime, speed)` (main.js lines 2103-2105):
`1 − e^(−speed·deltaTime)`. -/
noncomputable def getLerpFactor (deltaTime : ℝ) (speed : ℝ := LERP_SPEED) : ℝ :=
  1 - Real.exp (-speed * deltaTime)

/-- `THREE.MathUtils.lerp(x, y, t) = (1 − t)·x + t·y`, the scalar blend used
by the expression writes (main.js lines 2598-2655). -/
noncomputable def lerpValue (x y t : ℝ) : ℝ :=
  (1 - t) * x + t * y

/-- C10: for every deltaTime ≥ 0 and positive speed the damped-interpolation
factor `1 − e^(−speed·deltaTime)` lies in [0, 1); consequently each scalar
blend by this factor is a convex interpolation that stays between the current
value and its target, never moving past the target in one frame. -/
theorem getLerpFactor_in_unit_interval :
    ∀ deltaTime speed : ℝ, 0 ≤ deltaTime → 0 < speed →
      (0 ≤ getLerpFactor deltaTime speed ∧ getLerpFactor deltaTime speed < 1) ∧
      ∀ current target : ℝ,
        min current target ≤
          lerpValue current target (getLerpFactor deltaTime speed) ∧
        lerpValue current target (getLerpFactor deltaTime speed) ≤
          max current target := by
  intro dt s hdt hs
  have hexp_pos := Real.exp_pos (-s * dt)
  have hexp_le : Real.exp (-s * dt) ≤ 1 := by
    rw [Real.exp_le_one_iff]
    nlinarith
  have h0 : 0 ≤ getLerpFactor dt s := by
    unfold getLerpFactor
    linarith
  have h1 : getLerpFactor dt s < 1 := by
    unfold getLerpFactor
    linarith
  refine ⟨⟨h0, h1⟩, ?_⟩
  intro a b
  unfold lerpValue
  rcases le_total a b with h | h
  · rw [min_eq_left h, max_eq_right h]
    constructor
    · nlinarith [mul_nonneg h0 (sub_nonneg.mpr h)]
    · nlinarith [mul_nonneg (by linarith : (0:ℝ) ≤ 1 - getLerpFactor dt s)
        (sub_nonneg.mpr h)]
  · rw [min_eq_right h, max_eq_left h]
    constructor
    · nlinarith [mul_nonneg (by linarith : (0:ℝ) ≤ 1 - getLerpFactor dt s)
        (sub_nonneg.mpr h)]
    · nlinarith [mul_nonneg h0 (sub_nonneg.mpr h)]

/-- Witness for C10 at deltaTime 1, speed 12. -/
theorem getLerpFactor_in_unit_interval_witness :
    0 ≤ getLerpFactor 1 12 ∧ getLerpFactor 1 12 < 1 :=
  (getLerpFactor_in_unit_interval 1 12 (by norm_num) (by norm_num)).1

/-- `epsilon` in `solveTwoBoneIK` (main.js line 2197). -/
noncomputable def ikEpsilon : ℝ := 1 / 1000

/-- `THREE.MathUtils.clamp(value, lo, hi) = max(lo, min(hi, value))`. -/
noncomputable def mclamp (value lo hi : ℝ) : ℝ :=
  max lo (min hi value)

/-- Step 1 of `solveTwoBoneIK` (main.js lines 2198-2205): the target distance
is clamped into `[|a−b|+ε, a+b−ε]`. -/
noncomputable def clampDist (a b d : ℝ) : ℝ :=
  if d > a + b - ikEpsilon then a + b - ikEpsilon
  else if d < |a - b| + ikEpsilon then |a - b| + ikEpsilon
  else d

/-- The law-of-cosines cosine at the elbow (main.js line 2212):
`(a·a + b·b − c·c)/(2·a·b)`. -/
noncomputable def cosElbowAngle (a b c : ℝ) : ℝ :=
  (a * a + b * b - c * c) / (2 * a * b)

/-- The elbow interior angle computed by the solver for a raw target distance
`d` (main.js line 2213): `acos` of the cosine clamped to [−1, 1], at the
clamped distance. -/
noncomputable def elbowAngle (a b d : ℝ) : ℝ :=
  Real.arccos (mclamp (cosElbowAngle a b (clampDist a b d)) (-1) 1)

/-- C2 counterexample: with bone lengths a = b = 0.3 and a target at distance
exactly a+b = 0.6, the ε-clamp to distance 0.599 makes the computed elbow
angle differ from 0, and its flexion complement π − elbowAngle differ from 0
as well, so neither reading of "elbow angle 0 (straight arm)" holds. -/
theorem ik_straight_target_angle_not_zero :
    elbowAngle (3/10) (3/10) (3/5) ≠ 0 ∧
    Real.pi - elbowAngle (3/10) (3/10) (3/5) ≠ 0 := by
  have hc : clampDist (3/10) (3/10) (3/5) = 599 / 1000 := by
    unfold clampDist ikEpsilon
    rw [if_pos (by norm_num)]
    norm_num
  have hcos : cosElbowAngle (3/10) (3/10) (599/1000) = -(178801/180000) := by
    unfold cosElbowAngle
    norm_num
  have hm : mclamp (-(178801/180000)) (-1) 1 = -(178801/180000) := by
    unfold mclamp
    rw [min_eq_right (by norm_num), max_eq_right (by norm_num)]
  have hval : elbowAngle (3/10) (3/10) (3/5) =
      Real.arccos (-(178801/180000)) := by
    unfold elbowAngle
    rw [hc, hcos, hm]
  constructor
  · rw [hval]
    intro h0
    rw [Real.arccos_eq_zero] at h0
    norm_num at h0
  · rw [hval]
    intro hpi
    have hpi' : Real.arccos (-(178801/180000)) = Real.pi := by linarith
    rw [Real.arccos_eq_pi] at hpi'
    norm_num at hpi'

/-- C2 amended: because the solver clamps the target distance into
`[|a−b|+ε, a+b−ε]` before the law of cosines, a target at distance exactly
`a+b` yields an elbow interior angle strictly below π — a strictly positive
flexion `π − elbowAngle`, never an exactly straight arm — a target at
distance exactly `|a−b|` yields an elbow angle strictly above 0, and for
every target distance the clamped cosine lies in [−1, 1] and the angle is a
well-defined value in [0, π] (no undefined result), for bone lengths ≥ ε. -/
theorem ik_clamped_boundary_angles :
    ∀ a b : ℝ, ikEpsilon ≤ a → ikEpsilon ≤ b →
      (elbowAngle a b (a + b) < Real.pi ∧
        0 < Real.pi - elbowAngle a b (a + b)) ∧
      0 < elbowAngle a b |a - b| ∧
      ∀ d : ℝ,
        -1 ≤ mclamp (cosElbowAngle a b (clampDist a b d)) (-1) 1 ∧
        mclamp (cosElbowAngle a b (clampDist a b d)) (-1) 1 ≤ 1 ∧
        0 ≤ elbowAngle a b d ∧ elbowAngle a b d ≤ Real.pi := by
  intro a b ha hb
  have hε : (0:ℝ) < ikEpsilon := by unfold ikEpsilon; norm_num
  have hεv : ikEpsilon = 1/1000 := rfl
  have ha' : 0 < a := lt_of_lt_of_le hε ha
  have hb' : 0 < b := lt_of_lt_of_le hε hb
  have h2ab : 0 < 2 * a * b := by positivity
  have hfar : elbowAngle a b (a + b) < Real.pi := by
    have hclamp1 : clampDist a b (a + b) = a + b - ikEpsilon := by
      unfold clampDist
      rw [if_pos (by linarith)]
    have hcos1 : -1 < cosElbowAngle a b (a + b - ikEpsilon) := by
      unfold cosElbowAngle
      rw [neg_lt, ← neg_div, div_lt_one h2ab]
      nlinarith [mul_pos hε (show 0 < 2 * (a + b) - ikEpsilon by linarith)]
    have hcl : -1 < mclamp (cosElbowAngle a b (a + b - ikEpsilon)) (-1) 1 := by
      unfold mclamp
      exact lt_of_lt_of_le (lt_min (by norm_num) hcos1) (le_max_right _ _)
    unfold elbowAngle
    rw [hclamp1]
    exact lt_of_le_of_ne (Real.arccos_le_pi _)
      (fun heq => by rw [Real.arccos_eq_pi] at heq; linarith)
  refine ⟨⟨hfar, by linarith⟩, ?_, ?_⟩
  · have habs : |a - b| ≤ a + b - ikEpsilon := by
      rw [abs_sub_le_iff]
      constructor <;> linarith
    have hclamp2 : clampDist a b |a - b| = |a - b| + ikEpsilon := by
      unfold clampDist
      rw [if_neg (not_lt.mpr habs), if_pos (by linarith)]
    have hcos2 : cosElbowAngle a b (|a - b| + ikEpsilon) < 1 := by
      unfold cosElbowAngle
      rw [div_lt_one h2ab]
      nlinarith [abs_mul_abs_self (a - b), abs_nonneg (a - b),
        mul_nonneg (abs_nonneg (a - b)) hε.le]
    have hcl : mclamp (cosElbowAngle a b (|a - b| + ikEpsilon)) (-1) 1 < 1 := by
      unfold mclamp
      exact max_lt (by norm_num) (lt_of_le_of_lt (min_le_right _ _) hcos2)
    unfold elbowAngle
    rw [hclamp2]
    exact Real.arccos_pos.mpr hcl
  · intro d
    refine ⟨le_max_left _ _, max_le (by norm_num) (min_le_left _ _), ?_, ?_⟩
    · exact Real.arccos_nonneg _
    · exact Real.arccos_le_pi _

/-- Witness for C2's amended claim at bone lengths a = b = 0.3. -/
theorem ik_clamped_boundary_angles_witness :
    ikEpsilon ≤ (3:ℝ)/10 ∧
    0 < Real.pi - elbowAngle (3/10) (3/10) (3/10 + 3/10) :=
  ⟨by norm_num [ikEpsilon],
    (ik_clamped_boundary_angles (3/10) (3/10)
      (by norm_num [ikEpsilon]) (by norm_num [ikEpsilon])).1.2⟩

/-- A real-valued 3-vector for hand-landmark positions. -/
structure RVec3 where
  x : ℝ
  y : ℝ
  z : ℝ

/-- `THREE.Vector3.distanceTo`: Euclidean distance. -/
noncomputable def dist3 (p q : RVec3) : ℝ :=
  Real.sqrt ((p.x - q.x) * (p.x - q.x) + (p.y - q.y) * (p.y - q.y) +
    (p.z - q.z) * (p.z - q.z))

/-- `totalLength` in `applyFingers` (main.js lines 2483-2487): the sum of the
three segment lengths MCP-PIP, PIP-DIP, DIP-TIP. -/
noncomputable def arcLen (mcpPos pipPos dipPos tipPos : RVec3) : ℝ :=
  dist3 mcpPos pipPos + dist3 pipPos dipPos + dist3 dipPos tipPos

/-- The curl computation of `applyFingers` (main.js lines 2489-2498) as a
function of the straight-line and total lengths:
`curl = clamp(1 − straightDist/totalLength, 0, 1)` followed by
`curl = clamp(curl^0.7 · 1.5, 0, 1)`. -/
noncomputable def curlFromLengths (straightDist totalLength : ℝ) : ℝ :=
  mclamp ((mclamp (1 - straightDist / totalLength) 0 1) ^ ((7:ℝ)/10) *
    (3/2)) 0 1

/-- The per-finger curl `applyFingers` computes from the four joints. -/
noncomputable def fingerCurl (mcpPos pipPos dipPos tipPos : RVec3) : ℝ :=
  curlFromLengths (dist3 mcpPos tipPos) (arcLen mcpPos pipPos dipPos tipPos)

/-- A point on the line through `o` with direction `v` at parameter `s`. -/
noncomputable def linePoint (o v : RVec3) (s : ℝ) : RVec3 :=
  ⟨o.x + s * v.x, o.y + s * v.y, o.z + s * v.z⟩

/-- Squared length of an `RVec3`. -/
noncomputable def lengthSqR (v : RVec3) : ℝ :=
  v.x * v.x + v.y * v.y + v.z * v.z

/-- Distances along a straight line scale with the parameter gap. -/
theorem dist3_linePoint (o v : RVec3) (s t : ℝ) :
    dist3 (linePoint o v s) (linePoint o v t) =
      |s - t| * Real.sqrt (lengthSqR v) := by
  unfold dist3 linePoint lengthSqR
  dsimp only
  rw [← Real.sqrt_mul_self_eq_abs (s - t),
    ← Real.sqrt_mul (mul_self_nonneg _)]
  congr 1
  ring

/-- C6: the finger-curl scalar equals
`clamp(clamp(1 − straight/arc, 0, 1)^0.7 · 1.5, 0, 1)`; four colinear joints
in order (a straight finger) give curl 0, and joints folded so the straight
MCP-TIP distance is 0.4× the arc length give raw curl 0.6 and reshaped curl
`clamp(0.6^0.7 · 1.5, 0, 1)`, which evaluates to exactly 1 (inside the
claimed ≈0.98–1.0 range). -/
theorem fingerCurl_geometry :
    (∀ (o v : RVec3) (t1 t2 t3 t4 : ℝ),
      t1 ≤ t2 → t2 ≤ t3 → t3 ≤ t4 → t1 < t4 → 0 < lengthSqR v →
      fingerCurl (linePoint o v t1) (linePoint o v t2) (linePoint o v t3)
        (linePoint o v t4) = 0) ∧
    (∀ p1 p2 p3 p4 : RVec3,
      0 < arcLen p1 p2 p3 p4 →
      dist3 p1 p4 = 2/5 * arcLen p1 p2 p3 p4 →
      mclamp (1 - dist3 p1 p4 / arcLen p1 p2 p3 p4) 0 1 = 3/5 ∧
      fingerCurl p1 p2 p3 p4 =
        mclamp (((3:ℝ)/5) ^ ((7:ℝ)/10) * (3/2)) 0 1 ∧
      fingerCurl p1 p2 p3 p4 = 1) := by
  have hclamp0 : mclamp (0:ℝ) 0 1 = 0 := by
    unfold mclamp
    norm_num
  have hclamp35 : mclamp (1 - (2:ℝ)/5) 0 1 = 3/5 := by
    unfold mclamp
    norm_num
  have hkey : (2:ℝ)/3 ≤ ((3:ℝ)/5) ^ ((7:ℝ)/10) := by
    have h10 : (((3:ℝ)/5) ^ ((7:ℝ)/10)) ^ (10:ℕ) = ((3:ℝ)/5) ^ (7:ℕ) := by
      rw [← Real.rpow_natCast (((3:ℝ)/5) ^ ((7:ℝ)/10)) 10,
        ← Real.rpow_mul (by norm_num : (0:ℝ) ≤ 3/5),
        show (7:ℝ)/10 * ((10:ℕ):ℝ) = ((7:ℕ):ℝ) by push_cast; ring,
        Real.rpow_natCast]
    apply le_of_pow_le_pow_left₀ (n := 10) (by norm_num)
      (Real.rpow_nonneg (by norm_num) _)
    rw [h10]
    norm_num
  have hone : mclamp (((3:ℝ)/5) ^ ((7:ℝ)/10) * (3/2)) 0 1 = 1 := by
    unfold mclamp
    rw [min_eq_left (by nlinarith), max_eq_right (by norm_num)]
  constructor
  · intro o v t1 t2 t3 t4 h12 h23 h34 h14 hv
    have hL : 0 < Real.sqrt (lengthSqR v) := Real.sqrt_pos.mpr hv
    have d12 := dist3_linePoint o v t1 t2
    have d23 := dist3_linePoint o v t2 t3
    have d34 := dist3_linePoint o v t3 t4
    have d14 := dist3_linePoint o v t1 t4
    rw [abs_sub_comm, abs_of_nonneg (by linarith : (0:ℝ) ≤ t2 - t1)] at d12
    rw [abs_sub_comm, abs_of_nonneg (by linarith : (0:ℝ) ≤ t3 - t2)] at d23
    rw [abs_sub_comm, abs_of_nonneg (by linarith : (0:ℝ) ≤ t4 - t3)] at d34
    rw [abs_sub_comm, abs_of_nonneg (by linarith : (0:ℝ) ≤ t4 - t1)] at d14
    have harc : arcLen (linePoint o v t1) (linePoint o v t2) (linePoint o v t3)
        (linePoint o v t4) = (t4 - t1) * Real.sqrt (lengthSqR v) := by
      unfold arcLen
      rw [d12, d23, d34]
      ring
    have hnz : (t4 - t1) * Real.sqrt (lengthSqR v) ≠ 0 :=
      ne_of_gt (mul_pos (by linarith) hL)
    unfold fingerCurl curlFromLengths
    rw [harc, d14, div_self hnz, sub_self, hclamp0,
      Real.zero_rpow (by norm_num : (7:ℝ)/10 ≠ 0), zero_mul, hclamp0]
  · intro p1 p2 p3 p4 harc hratio
    have hane : arcLen p1 p2 p3 p4 ≠ 0 := ne_of_gt harc
    have hdiv : dist3 p1 p4 / arcLen p1 p2 p3 p4 = 2/5 := by
      rw [hratio]
      field_simp
      ring
    have hraw : mclamp (1 - dist3 p1 p4 / arcLen p1 p2 p3 p4) 0 1 = 3/5 := by
      rw [hdiv, hclamp35]
    refine ⟨hraw, ?_, ?_⟩
    · unfold fingerCurl curlFromLengths
      rw [hdiv, hclamp35]
    · unfold fingerCurl curlFromLengths
      rw [hdiv, hclamp35, hone]

/-- Witness for C6: a straight finger along the x-axis (parameters 0,1,2,3)
has curl exactly 0. -/
theorem fingerCurl_geometry_witness :
    fingerCurl (linePoint ⟨0, 0, 0⟩ ⟨1, 0, 0⟩ 0) (linePoint ⟨0, 0, 0⟩ ⟨1, 0, 0⟩ 1)
      (linePoint ⟨0, 0, 0⟩ ⟨1, 0, 0⟩ 2) (linePoint ⟨0, 0, 0⟩ ⟨1, 0, 0⟩ 3) = 0 :=
  fingerCurl_geometry.1 ⟨0, 0, 0⟩ ⟨1, 0, 0⟩ 0 1 2 3 (by norm_num) (by norm_num)
    (by norm_num) (by norm_num) (by norm_num [lengthSqR])

end AvatarRecoder
